import Mathlib

/-!
# Verification of the pdf-burger collection-and-merge pipeline

Shallow embedding of `pdf_burger/monads.py`, `pdf_burger/collector.py` and
`pdf_burger/merger.py`.  Paths are modeled as lists of components, the
filesystem as a tree of nodes, and the PDF codec (pypdf) as an oracle stored
in the file nodes: a file node records whether `PdfReader`/`append` succeeds
on it (`readErr = none`) and how many pages it has.  Python exceptions are
modeled with `Except`; `str.lower` is modeled on the ASCII range by
`Char.toLower`.
-/

namespace PdfBurger

/-- A resolved absolute path, as its list of components
(`Path("/a/b")` ↦ `["a", "b"]`). -/
abbrev FilePath := List String

/-- Rendering of a path into the messages that interpolate `{raw}`/`{path}`. -/
def pathStr (p : FilePath) : String := String.intercalate "/" p

/-- `path.name`: the final component. -/
def pathName (p : FilePath) : String := (p.getLast?).getD ""

/-! ## The Result monad of `monads.py` (`Ok` / `Err`) -/

/-- `Ok`/`Err` from `monads.py`. -/
inductive Result (T : Type) (E : Type) where
  | ok (value : T)
  | err (error : E)
deriving DecidableEq

/-- `Ok.map` / `Err.map`. -/
def Result.map (f : T → U) : Result T E → Result U E
  | .ok v => .ok (f v)
  | .err e => .err e

/-- `Ok.bind` / `Err.bind`. -/
def Result.bind (r : Result T E) (f : T → Result U E) : Result U E :=
  match r with
  | .ok v => f v
  | .err e => .err e

/-- `Ok.map_err` / `Err.map_err`. -/
def Result.mapErr (f : E → E) : Result T E → Result T E
  | .ok v => .ok v
  | .err e => .err (f e)

/-- `Ok.unwrap_or` / `Err.unwrap_or`. -/
def Result.unwrapOr (r : Result T E) (default : T) : T :=
  match r with
  | .ok v => v
  | .err _ => default

/-- `Ok.is_ok` / `Err.is_ok`. -/
def Result.isOk : Result T E → Bool
  | .ok _ => true
  | .err _ => false

/-- `Ok.is_err` / `Err.is_err`. -/
def Result.isErr : Result T E → Bool
  | .ok _ => false
  | .err _ => true

/-- `unwrap`: returns the payload on `Ok`; on `Err` it raises
`RuntimeError(f"unwrap called on Err: {self.error}")` — raising is modeled as
`Except.error` carrying the exception message.  The pipeline instantiates the
error type at `String`, so `str(self.error)` is the error itself. -/
def Result.unwrap : Result T String → Except String T
  | .ok v => .ok v
  | .err e => .error ("unwrap called on Err: " ++ e)

/-- Execution of `map` when the mapped function itself may raise (raising is
modeled as `Except.error`): on `Err` the function is not called. -/
def Result.mapExec (f : T → Except String U) : Result T E → Except String (Result U E)
  | .ok v => (f v).map Result.ok
  | .err e => .ok (.err e)

/-- Execution of `bind` when the bound function itself may raise. -/
def Result.bindExec (f : T → Except String (Result U E)) :
    Result T E → Except String (Result U E)
  | .ok v => f v
  | .err e => .ok (.err e)

/-- Execution of `map_err` when the function itself may raise. -/
def Result.mapErrExec (f : E → Except String E) :
    Result T E → Except String (Result T E)
  | .ok v => .ok (.ok v)
  | .err e => (f e).map Result.err

/-- The `Ok` payload, if any (the `r.value for r in results if r.is_ok()`
comprehension of `partition_results`). -/
def okOf : Result T E → Option T
  | .ok v => some v
  | .err _ => none

/-- The `Err` payload, if any. -/
def errOf : Result T E → Option E
  | .ok _ => none
  | .err e => some e

/-- `partition_results`: split into (successes, failures), keeping order and
never short-circuiting. -/
def partitionResults (rs : List (Result T E)) : List T × List E :=
  (rs.filterMap okOf, rs.filterMap errOf)

/-! ## `natural_sort_key`

`re.split(r"(\d+)", path.name)` alternates a (possibly empty) non-digit run
with digit-run/non-digit-run pairs; the comprehension turns digit runs into
ints and lowercases the rest.  The alternation is made structural here: a key
is the lowered leading non-digit run followed by (digit value, lowered
non-digit run) pairs.  Python's element-by-element list comparison of two such
keys is exactly the lexicographic comparison of this representation. -/

/-- The maximal run of digit characters at the head, and the rest. -/
def spanDigits : List Char → List Char × List Char
  | [] => ([], [])
  | c :: cs =>
    if c.isDigit then
      let (d, r) := spanDigits cs
      (c :: d, r)
    else ([], c :: cs)

/-- The maximal run of non-digit characters at the head, and the rest. -/
def spanNonDigits : List Char → List Char × List Char
  | [] => ([], [])
  | c :: cs =>
    if c.isDigit then ([], c :: cs)
    else
      let (t, r) := spanNonDigits cs
      (c :: t, r)

/-- `int(p)` on a digit run. -/
def digitsToNat (ds : List Char) : Nat :=
  ds.foldl (fun a c => a * 10 + (c.toNat - 48)) 0

/-- `p.lower()`, on the ASCII range. -/
def lowerRun (cs : List Char) : String := String.mk (cs.map Char.toLower)

/-- The digit/non-digit pairs after the leading non-digit run.  Invoked on a
remainder that is empty or starts with a digit.  Structural fuel (the length
of the list) keeps the definition kernel-reducible; each step consumes at
least one character, so the fuel never runs out. -/
def natKeyPairs : Nat → List Char → List (Nat × String)
  | 0, _ => []
  | _, [] => []
  | fuel + 1, c :: cs =>
    let (d, r1) := spanDigits cs
    let (t, r2) := spanNonDigits r1
    (digitsToNat (c :: d), lowerRun t) :: natKeyPairs fuel r2

/-- `natural_sort_key(path)`, with the alternating list made structural. -/
def natKey (name : String) : String × List (Nat × String) :=
  let (t, r) := spanNonDigits name.data
  (lowerRun t, natKeyPairs r.length r)

/-- Python's string comparison: lexicographic by code point, a proper prefix
first. -/
def cmpChars : List Char → List Char → Ordering
  | [], [] => .eq
  | [], _ :: _ => .lt
  | _ :: _, [] => .gt
  | a :: as, b :: bs =>
    if a.toNat < b.toNat then .lt
    else if b.toNat < a.toNat then .gt
    else cmpChars as bs

/-- Python's string comparison, on `String`. -/
def cmpStr (a b : String) : Ordering := cmpChars a.data b.data

/-- Python's comparison of one aligned (digit value, following text run)
pair of two keys: ints compare as ints, runs as (lowercased) strings. -/
def cmpRun : Nat × String → Nat × String → Ordering
  | (n₁, s₁), (n₂, s₂) =>
    if n₁ < n₂ then .lt
    else if n₂ < n₁ then .gt
    else cmpStr s₁ s₂

/-- Python's list comparison on the pair lists: first differing element
decides; a proper prefix sorts first. -/
def cmpRuns : List (Nat × String) → List (Nat × String) → Ordering
  | [], [] => .eq
  | [], _ :: _ => .lt
  | _ :: _, [] => .gt
  | x :: xs, y :: ys =>
    match cmpRun x y with
    | .eq => cmpRuns xs ys
    | o => o

/-- Comparison of two full sort keys: the leading (lowered) text run first,
then the pair list. -/
def cmpKey (a b : String × List (Nat × String)) : Ordering :=
  match cmpStr a.1 b.1 with
  | .eq => cmpRuns a.2 b.2
  | o => o

/-- The strict order induced by `natural_sort_key` on key values. -/
def keyLt (a b : String × List (Nat × String)) : Bool :=
  match cmpKey a b with
  | .lt => true
  | _ => false

/-- Stable insertion step of `sorted(..., key=...)`: `x` goes after every
element strictly below it, and before the first element not below it. -/
def insertByKey (k : α → String × List (Nat × String)) (x : α) : List α → List α
  | [] => [x]
  | y :: ys => if keyLt (k y) (k x) then y :: insertByKey k x ys else x :: y :: ys

/-- `sorted(l, key=k)` as a stable insertion sort. -/
def sortByKey (k : α → String × List (Nat × String)) : List α → List α
  | [] => []
  | x :: xs => insertByKey k x (sortByKey k xs)

/-! ## Filesystem and codec model

A node is a regular file, a directory with named children, or anything else
(device, socket, symlink loop, …).  A file node carries the codec oracle:
`readErr = some e` means `PdfReader`/`append` raises with message `e`, and
`pages` is the page count reported when reading succeeds. -/

/-- One filesystem entry. -/
inductive FsNode where
  | file (readErr : Option String) (pages : Nat)
  | dir (children : List (String × FsNode))
  | other

/-- `p.is_file()` on a looked-up node. -/
def isFileNode : FsNode → Bool
  | .file _ _ => true
  | _ => false

/-- Walking a resolved path down from the root (`none` ↔ the path does not
exist). -/
def lookup : FilePath → FsNode → Option FsNode
  | [], n => some n
  | c :: rest, .dir cs =>
    match cs.find? (fun child => child.1 == c) with
    | some child => lookup rest child.2
    | none => none
  | _ :: _, _ => none

/-- `pathlib.Path.suffix` of a name: from the last dot, empty when there is no
dot, the dot is the first character, or the dot is the last character. -/
def nameSuffix (name : String) : String :=
  let rev := name.data.reverse
  let ext := rev.takeWhile (fun c => c ≠ '.')
  match rev.dropWhile (fun c => c ≠ '.') with
  | [] => ""
  | _ :: before =>
    if before = [] then ""
    else if ext = [] then ""
    else String.mk ('.' :: ext.reverse)

/-- `s.lower()` on the ASCII range. -/
def strLower (s : String) : String := String.mk (s.data.map Char.toLower)

/-- Whether a name matches the glob pattern `*.[pP][dD][fF]`. -/
def isPdfName (name : String) : Bool :=
  match name.data.reverse with
  | f :: d :: p :: dot :: _ =>
    (f == 'f' || f == 'F') && (d == 'd' || d == 'D') &&
      (p == 'p' || p == 'P') && (dot == '.')
  | _ => false

/-! ## `collector.py` -/

/-- `CollectResult`: files and warnings, both ordered. -/
structure CollectResult where
  files : List FilePath
  warnings : List String
deriving DecidableEq

/-- `_read_pdf` under `@safe`: an unreadable file raises inside `PdfReader`
(caught into `Err` with the exception's message), a readable file with zero
pages raises `ValueError(f"PDF has no pages: {path}")`, otherwise the path is
returned. -/
def readPdf (root : FsNode) (p : FilePath) : Result FilePath String :=
  match lookup p root with
  | some (.file (some e) _) => .err e
  | some (.file none pages) =>
    if pages = 0 then .err ("PDF has no pages: " ++ pathStr p) else .ok p
  | _ => .err ("cannot open: " ++ pathStr p)

/-- `validate_pdf`: `_read_pdf(path).map_err(lambda e: str(e))`; errors are
already modeled as their message strings. -/
def validatePdf (root : FsNode) (p : FilePath) : Result FilePath String :=
  (readPdf root p).mapErr (fun e => e)

/-- `_resolve_file`: explicit file; a wrong extension or a validation failure
is fatal. -/
def resolveFile (root : FsNode) (raw : FilePath) : Result CollectResult String :=
  if strLower (nameSuffix (pathName raw)) ≠ ".pdf" then
    .err ("not a PDF file: " ++ pathStr raw)
  else
    ((validatePdf root raw).map (fun p => CollectResult.mk [p] [])).mapErr
      (fun e => "cannot read PDF: " ++ pathStr raw ++ " (" ++ e ++ ")")

mutual

/-- Size of a node, used as structural fuel for the recursive glob: it
strictly dominates the size of every descendant. -/
def nodeSize : FsNode → Nat
  | .file _ _ => 1
  | .other => 1
  | .dir cs => 1 + childrenSize cs

/-- Size of a children list. -/
def childrenSize : List (String × FsNode) → Nat
  | [] => 0
  | c :: rest => 1 + nodeSize c.2 + childrenSize rest

end

/-- `path.rglob("*.[pP][dD][fF]")` on a directory node: the matches among the
immediate children (in listing order), then the matches of each subdirectory,
depth-first.  Structural fuel (`nodeSize` of the node strictly dominates every
descendant's) keeps the definition kernel-reducible without cutting the
traversal short. -/
def rglobPdf : Nat → FilePath → FsNode → List (FilePath × FsNode)
  | 0, _, _ => []
  | fuel + 1, raw, .dir cs =>
    ((cs.filter (fun c => isPdfName c.1)).map (fun c => (raw ++ [c.1], c.2))) ++
      (cs.map (fun c => rglobPdf fuel (raw ++ [c.1]) c.2)).flatten
  | _ + 1, _, _ => []

/-- The glob stage of `_resolve_dir`: `path.rglob` when recursive, else
`path.glob` (immediate children only), each match paired with its node. -/
def globMatches (raw : FilePath) (cs : List (String × FsNode)) (recursive : Bool) :
    List (FilePath × FsNode) :=
  if recursive then rglobPdf (nodeSize (.dir cs)) raw (.dir cs)
  else (cs.filter (fun c => isPdfName c.1)).map (fun c => (raw ++ [c.1], c.2))

/-- The candidate paths of `_resolve_dir`: glob matches that are regular files
(`if p.is_file()`). -/
def dirCandidates (raw : FilePath) (cs : List (String × FsNode)) (recursive : Bool) :
    List FilePath :=
  ((globMatches raw cs recursive).filter (fun pc => isFileNode pc.2)).map (fun pc => pc.1)

/-- The `pdfs` list of `_resolve_dir`: candidates sorted by
`natural_sort_key`. -/
def sortedPdfs (raw : FilePath) (cs : List (String × FsNode)) (recursive : Bool) :
    List FilePath :=
  sortByKey (fun p => natKey (pathName p)) (dirCandidates raw cs recursive)

/-- `_resolve_dir`: empty scan is a warning; otherwise validate each sorted
candidate, validation failures becoming warnings via `partition_results`. -/
def resolveDir (root : FsNode) (raw : FilePath) (cs : List (String × FsNode))
    (recursive : Bool) : Result CollectResult String :=
  let pdfs := sortedPdfs raw cs recursive
  if pdfs = [] then
    .ok ⟨[], ["no PDFs found in directory: " ++ pathStr raw]⟩
  else
    let (validPaths, errors) := partitionResults (pdfs.map (validatePdf root))
    .ok ⟨validPaths, errors⟩

/-- `_resolve_input`: missing paths and entries that are neither regular files
nor directories are fatal. -/
def resolveInput (root : FsNode) (recursive : Bool) (raw : FilePath) :
    Result CollectResult String :=
  match lookup raw root with
  | none => .err ("path not found: " ++ pathStr raw)
  | some (.file _ _) => resolveFile root raw
  | some (.dir cs) => resolveDir root raw cs recursive
  | some .other => .err ("unsupported path type: " ++ pathStr raw)

/-- `_merge_collect_results`. -/
def mergeCollectResults (a b : CollectResult) : CollectResult :=
  ⟨a.files ++ b.files, a.warnings ++ b.warnings⟩

/-- `_EMPTY`. -/
def emptyCollect : CollectResult := ⟨[], []⟩

/-- The `accumulate` step of `collect_pdfs`. -/
def accumulate (root : FsNode) (recursive : Bool) (acc : Result CollectResult String)
    (raw : FilePath) : Result CollectResult String :=
  acc.bind (fun prev => (resolveInput root recursive raw).map
    (fun curr => mergeCollectResults prev curr))

/-- `collect_pdfs`: fold the inputs, then turn an empty file list into the
failure `"no PDF files to merge"`. -/
def collectPdfs (root : FsNode) (inputs : List FilePath) (recursive : Bool) :
    Result CollectResult String :=
  (inputs.foldl (accumulate root recursive) (.ok emptyCollect)).bind
    (fun cr => if cr.files = [] then .err "no PDF files to merge" else .ok cr)

/-! ## `merger.py`

The world carries the source tree, the set of existing directories (for
`output.parent.exists()`/`mkdir`), the outputs written so far, and the codec's
finalize-failures (`writer.write` raising at a given output path). -/

/-- `MergeResult`. -/
structure MergeResult where
  output : FilePath
  fileCount : Nat
  pageCount : Nat
deriving DecidableEq

/-- The mutable state `merge_pdfs`'s effect touches. -/
structure World where
  root : FsNode
  dirs : List FilePath
  written : List (FilePath × Nat)
  writeErrs : List (FilePath × String)

/-- `_append_pdf` through the codec: appending a readable file adds its pages
to the writer; an unreadable file raises. -/
def appendPdf (root : FsNode) (w : Nat) (p : FilePath) : Except String Nat :=
  match lookup p root with
  | some (.file none pages) => .ok (w + pages)
  | some (.file (some e) _) => .error e
  | _ => .error ("cannot open: " ++ pathStr p)

/-- `_build_writer`: fold `_append_pdf` over the files starting from an empty
writer; `_build_writer_with_progress` appends the same files in the same
order, the progress bar being presentation only, so both branches are this
fold. -/
def buildWriter (root : FsNode) (w : Nat) : List FilePath → Except String Nat
  | [] => .ok w
  | p :: ps =>
    match appendPdf root w p with
    | .error e => .error e
    | .ok w' => buildWriter root w' ps

/-- `writer.write(str(output))`: may raise (modeled by `writeErrs`); on
success the output is recorded with the writer's page count. -/
def writeOut (w : World) (output : FilePath) (pages : Nat) : Except String World :=
  match w.writeErrs.find? (fun pe => pe.1 == output) with
  | some pe => .error pe.2
  | none => .ok { w with written := (output, pages) :: w.written }

/-- The body of `effect()` in `merge_pdfs`, with the surrounding
`try/except Exception` turning any raise into `Err(f"merge failed: {e}")`.
`on_verbose` and the progress bar are presentation side channels with no
semantic weight and are not modeled. -/
def mergeEffect (files : List FilePath) (output : FilePath) (w : World) :
    World × Result MergeResult String :=
  let w1 := if output.dropLast ∈ w.dirs then w
            else { w with dirs := output.dropLast :: w.dirs }
  match buildWriter w1.root 0 files with
  | .error e => (w1, .err ("merge failed: " ++ e))
  | .ok pages =>
    match writeOut w1 output pages with
    | .error e => (w1, .err ("merge failed: " ++ e))
    | .ok w2 => (w2, .ok ⟨output, files.length, pages⟩)

/-- The `IO` value of `monads.py`: a lazy effect, modeled as a state
transformer on `World`; `run` applies it. -/
def IOAction (α : Type) : Type := World → World × α

/-- `IO.run`. -/
def IOAction.run (io : IOAction α) (w : World) : World × α := io w

/-- `merge_pdfs`: wraps `effect` in `IO` without running it. -/
def mergePdfs (files : List FilePath) (output : FilePath) :
    IOAction (Result MergeResult String) :=
  fun w => mergeEffect files output w

/-- Python's evaluation of the call `merge_pdfs(...)` itself, as a world
transition: the body only constructs the closure, so the world is returned
untouched together with the `IO` value. -/
def mergePdfsCall (files : List FilePath) (output : FilePath) (w : World) :
    World × IOAction (Result MergeResult String) :=
  (w, mergePdfs files output)

/-- The page count the codec reports for a source document (used to state
that a successful merge's page count is the sum over the sources). -/
def pagesOf (root : FsNode) (p : FilePath) : Nat :=
  match lookup p root with
  | some (.file none pages) => pages
  | _ => 0

/-- Sum of the sources' page counts. -/
def sumPages (root : FsNode) (files : List FilePath) : Nat :=
  (files.map (pagesOf root)).sum

/-- Whether an `Except`-modeled execution completed without raising. -/
def exOk : Except String α → Bool
  | .ok _ => true
  | .error _ => false

/-! ## Concrete sample filesystem used by the witnesses -/

/-- Children of the sample directory `d`: a corrupt PDF, a valid PDF, a
subdirectory whose name matches `*.pdf`, and a device node. -/
def sampleDChildren : List (String × FsNode) :=
  [("b.pdf", .file (some "broken") 1), ("a.pdf", .file none 2),
   ("sub.pdf", .dir []), ("dev0", .other)]

/-- Children of the sample directory `d2`: exactly one valid and one corrupt
PDF. -/
def sampleD2Children : List (String × FsNode) :=
  [("good.pdf", .file none 3), ("bad.pdf", .file (some "EOF marker not found") 0)]

/-- A sample tree: a non-PDF file, the directories `d` and `d2`, a device
node, and an empty directory `e`. -/
def sampleRoot : FsNode :=
  .dir [("x.txt", .file (some "failed to open x.txt") 0),
        ("d", .dir sampleDChildren),
        ("d2", .dir sampleD2Children),
        ("dev0", .other),
        ("e", .dir [])]

/-- A sample merge world over `sampleRoot`: the output's parent directory (the
filesystem root `[]`) exists, nothing written yet, finalize succeeds
everywhere. -/
def sampleWorld : World := ⟨sampleRoot, [[]], [], []⟩

/-! ## Order properties of the natural sort comparator -/

theorem char_eq_of_toNat_eq {a b : Char} (h : a.toNat = b.toNat) : a = b := by
  have := congrArg Char.ofNat h
  simpa using this

theorem cmpChars_eq {a : List Char} : ∀ {b}, cmpChars a b = .eq → a = b := by
  induction a with
  | nil =>
    intro b h
    cases b with
    | nil => rfl
    | cons y ys => simp [cmpChars] at h
  | cons x xs ih =>
    intro b h
    cases b with
    | nil => simp [cmpChars] at h
    | cons y ys =>
      simp only [cmpChars] at h
      split_ifs at h with h₁ h₂
      have hx : x = y := char_eq_of_toNat_eq (by omega)
      rw [hx, ih h]

theorem cmpChars_swap (a : List Char) : ∀ b, (cmpChars a b).swap = cmpChars b a := by
  induction a with
  | nil => intro b; cases b <;> rfl
  | cons x xs ih =>
    intro b
    cases b with
    | nil => rfl
    | cons y ys =>
      simp only [cmpChars]
      split_ifs <;> first | rfl | omega | exact ih ys

theorem cmpChars_lt_trans {a : List Char} :
    ∀ {b c}, cmpChars a b = .lt → cmpChars b c = .lt → cmpChars a c = .lt := by
  induction a with
  | nil =>
    intro b c h₁ h₂
    cases b with
    | nil => simp [cmpChars] at h₁
    | cons y ys =>
      cases c with
      | nil => simp [cmpChars] at h₂
      | cons z zs => simp [cmpChars]
  | cons x xs ih =>
    intro b c h₁ h₂
    cases b with
    | nil => simp [cmpChars] at h₁
    | cons y ys =>
      cases c with
      | nil => simp [cmpChars] at h₂
      | cons z zs =>
        simp only [cmpChars] at h₁ h₂ ⊢
        split_ifs at h₁ h₂ ⊢ <;> first | rfl | omega | exact ih h₁ h₂

theorem cmpStr_eq {a b : String} (h : cmpStr a b = .eq) : a = b := by
  obtain ⟨la⟩ := a
  obtain ⟨lb⟩ := b
  have : la = lb := cmpChars_eq h
  rw [this]

theorem cmpStr_swap (a b : String) : (cmpStr a b).swap = cmpStr b a :=
  cmpChars_swap a.data b.data

theorem cmpStr_lt_trans {a b c : String} (h₁ : cmpStr a b = .lt)
    (h₂ : cmpStr b c = .lt) : cmpStr a c = .lt :=
  cmpChars_lt_trans h₁ h₂

theorem cmpRun_eq {a b : Nat × String} (h : cmpRun a b = .eq) : a = b := by
  obtain ⟨n₁, s₁⟩ := a
  obtain ⟨n₂, s₂⟩ := b
  simp only [cmpRun] at h
  split_ifs at h with h₁ h₂
  have hn : n₁ = n₂ := by omega
  have hs := cmpStr_eq h
  rw [hn, hs]

theorem cmpRun_swap (a b : Nat × String) : (cmpRun a b).swap = cmpRun b a := by
  obtain ⟨n₁, s₁⟩ := a
  obtain ⟨n₂, s₂⟩ := b
  simp only [cmpRun]
  split_ifs <;> first | rfl | omega | exact cmpStr_swap s₁ s₂

theorem cmpRun_lt_trans {a b c : Nat × String} (h₁ : cmpRun a b = .lt)
    (h₂ : cmpRun b c = .lt) : cmpRun a c = .lt := by
  obtain ⟨n₁, s₁⟩ := a
  obtain ⟨n₂, s₂⟩ := b
  obtain ⟨n₃, s₃⟩ := c
  simp only [cmpRun] at h₁ h₂ ⊢
  split_ifs at h₁ h₂ ⊢ <;> first | rfl | omega | exact cmpStr_lt_trans h₁ h₂

theorem cmpRuns_eq {a : List (Nat × String)} : ∀ {b}, cmpRuns a b = .eq → a = b := by
  induction a with
  | nil =>
    intro b h
    cases b with
    | nil => rfl
    | cons y ys => simp [cmpRuns] at h
  | cons x xs ih =>
    intro b h
    cases b with
    | nil => simp [cmpRuns] at h
    | cons y ys =>
      simp only [cmpRuns] at h
      cases hxy : cmpRun x y with
      | eq => rw [hxy] at h; rw [cmpRun_eq hxy, ih h]
      | lt => rw [hxy] at h; simp at h
      | gt => rw [hxy] at h; simp at h

theorem cmpRuns_swap (a : List (Nat × String)) :
    ∀ b, (cmpRuns a b).swap = cmpRuns b a := by
  induction a with
  | nil => intro b; cases b <;> rfl
  | cons x xs ih =>
    intro b
    cases b with
    | nil => rfl
    | cons y ys =>
      simp only [cmpRuns]
      cases hxy : cmpRun x y with
      | eq =>
        have hyx : cmpRun y x = .eq := by rw [← cmpRun_swap, hxy]; rfl
        rw [hyx]
        exact ih ys
      | lt =>
        have hyx : cmpRun y x = .gt := by rw [← cmpRun_swap, hxy]; rfl
        rw [hyx]
        rfl
      | gt =>
        have hyx : cmpRun y x = .lt := by rw [← cmpRun_swap, hxy]; rfl
        rw [hyx]
        rfl

theorem cmpRuns_lt_trans {a : List (Nat × String)} :
    ∀ {b c}, cmpRuns a b = .lt → cmpRuns b c = .lt → cmpRuns a c = .lt := by
  induction a with
  | nil =>
    intro b c h₁ h₂
    cases b with
    | nil => simp [cmpRuns] at h₁
    | cons y ys =>
      cases c with
      | nil => simp [cmpRuns] at h₂
      | cons z zs => simp [cmpRuns]
  | cons x xs ih =>
    intro b c h₁ h₂
    cases b with
    | nil => simp [cmpRuns] at h₁
    | cons y ys =>
      cases c with
      | nil => simp [cmpRuns] at h₂
      | cons z zs =>
        simp only [cmpRuns] at h₁ h₂ ⊢
        cases hxy : cmpRun x y with
        | gt => rw [hxy] at h₁; simp at h₁
        | eq =>
          rw [hxy] at h₁
          cases hyz : cmpRun y z with
          | gt => rw [hyz] at h₂; simp at h₂
          | eq =>
            rw [hyz] at h₂
            have hxz : cmpRun x z = .eq := by rw [cmpRun_eq hxy]; exact hyz
            rw [hxz]
            exact ih h₁ h₂
          | lt =>
            have hxz : cmpRun x z = .lt := by rw [cmpRun_eq hxy]; exact hyz
            rw [hxz]
        | lt =>
          cases hyz : cmpRun y z with
          | gt => rw [hyz] at h₂; simp at h₂
          | eq =>
            have hxz : cmpRun x z = .lt := by rw [← cmpRun_eq hyz]; exact hxy
            rw [hxz]
          | lt =>
            have hxz : cmpRun x z = .lt := cmpRun_lt_trans hxy hyz
            rw [hxz]

theorem cmpKey_swap (a b : String × List (Nat × String)) :
    (cmpKey a b).swap = cmpKey b a := by
  simp only [cmpKey]
  cases hs : cmpStr a.1 b.1 with
  | eq =>
    have h₂ : cmpStr b.1 a.1 = .eq := by rw [← cmpStr_swap, hs]; rfl
    rw [h₂]
    exact cmpRuns_swap a.2 b.2
  | lt =>
    have h₂ : cmpStr b.1 a.1 = .gt := by rw [← cmpStr_swap, hs]; rfl
    rw [h₂]
    rfl
  | gt =>
    have h₂ : cmpStr b.1 a.1 = .lt := by rw [← cmpStr_swap, hs]; rfl
    rw [h₂]
    rfl

theorem cmpKey_lt_trans {a b c : String × List (Nat × String)}
    (h₁ : cmpKey a b = .lt) (h₂ : cmpKey b c = .lt) : cmpKey a c = .lt := by
  simp only [cmpKey] at h₁ h₂ ⊢
  cases hab : cmpStr a.1 b.1 with
  | gt => rw [hab] at h₁; simp at h₁
  | eq =>
    rw [hab] at h₁
    cases hbc : cmpStr b.1 c.1 with
    | gt => rw [hbc] at h₂; simp at h₂
    | eq =>
      rw [hbc] at h₂
      have hac : cmpStr a.1 c.1 = .eq := by rw [cmpStr_eq hab]; exact hbc
      rw [hac]
      exact cmpRuns_lt_trans h₁ h₂
    | lt =>
      have hac : cmpStr a.1 c.1 = .lt := by rw [cmpStr_eq hab]; exact hbc
      rw [hac]
  | lt =>
    cases hbc : cmpStr b.1 c.1 with
    | gt => rw [hbc] at h₂; simp at h₂
    | eq =>
      have hac : cmpStr a.1 c.1 = .lt := by rw [← cmpStr_eq hbc]; exact hab
      rw [hac]
    | lt =>
      have hac : cmpStr a.1 c.1 = .lt := cmpStr_lt_trans hab hbc
      rw [hac]

theorem keyLt_iff {a b : String × List (Nat × String)} :
    keyLt a b = true ↔ cmpKey a b = .lt := by
  unfold keyLt
  cases cmpKey a b <;> simp

theorem keyLt_asymm {a b : String × List (Nat × String)}
    (h : keyLt a b = true) : keyLt b a = false := by
  have h₁ : cmpKey a b = .lt := keyLt_iff.mp h
  have h₂ : cmpKey b a = .gt := by rw [← cmpKey_swap, h₁]; rfl
  unfold keyLt
  rw [h₂]

theorem keyLt_trans {a b c : String × List (Nat × String)}
    (h₁ : keyLt a b = true) (h₂ : keyLt b c = true) : keyLt a c = true :=
  keyLt_iff.mpr (cmpKey_lt_trans (keyLt_iff.mp h₁) (keyLt_iff.mp h₂))

/-- C4: the order induced by `natural_sort_key` compares digit runs as
integers (`"2"` before `"10"`), compares non-digit runs case-insensitively,
decides at the first differing run pair, puts a proper run-prefix first, and
is a strict order (asymmetric and transitive); sorting
`["10.pdf", "2.pdf", "1.pdf"]` with it yields `["1.pdf", "2.pdf", "10.pdf"]`. -/
theorem natural_sort_order_strict_and_examples :
    (∀ a b : String, keyLt (natKey a) (natKey b) = true →
      keyLt (natKey b) (natKey a) = false) ∧
    (∀ a b c : String, keyLt (natKey a) (natKey b) = true →
      keyLt (natKey b) (natKey c) = true → keyLt (natKey a) (natKey c) = true) ∧
    keyLt (natKey "2.pdf") (natKey "10.pdf") = true ∧
    keyLt (natKey "a.pdf") (natKey "B.pdf") = true ∧
    cmpKey (natKey "A1.PDF") (natKey "a1.pdf") = .eq ∧
    keyLt (natKey "a2b") (natKey "a2b3") = true ∧
    sortByKey (fun s => natKey s) ["10.pdf", "2.pdf", "1.pdf"]
      = ["1.pdf", "2.pdf", "10.pdf"] := by
  refine ⟨?_, ?_, by decide, by decide, by decide, by decide, by decide⟩
  · intro a b h
    exact keyLt_asymm h
  · intro a b c h₁ h₂
    exact keyLt_trans h₁ h₂

/-- Witness for C4 at concrete inputs: asymmetry applied to
`"2.pdf" < "10.pdf"` gives that `"10.pdf" < "2.pdf"` fails. -/
theorem natural_sort_order_strict_and_examples_witness :
    keyLt (natKey "10.pdf") (natKey "2.pdf") = false :=
  natural_sort_order_strict_and_examples.1 "2.pdf" "10.pdf" (by decide)

/-! ## The collector fold -/

theorem accumulate_err (root : FsNode) (recursive : Bool) (m : String)
    (raw : FilePath) : accumulate root recursive (.err m) raw = .err m := rfl

theorem foldl_accumulate_err (root : FsNode) (recursive : Bool) (m : String) :
    ∀ inputs : List FilePath,
      inputs.foldl (accumulate root recursive) (.err m) = .err m := by
  intro inputs
  induction inputs with
  | nil => rfl
  | cons x xs ih => rw [List.foldl_cons, accumulate_err]; exact ih

theorem foldl_accumulate_ok_of_all_ok (root : FsNode) (recursive : Bool) :
    ∀ (inputs : List FilePath) (start : CollectResult),
      (∀ x ∈ inputs, ∃ c, resolveInput root recursive x = .ok c) →
      ∃ acc, inputs.foldl (accumulate root recursive) (.ok start) = .ok acc := by
  intro inputs
  induction inputs with
  | nil => intro start _; exact ⟨start, rfl⟩
  | cons x xs ih =>
    intro start h
    obtain ⟨c, hc⟩ := h x (by simp)
    rw [List.foldl_cons]
    have hstep : accumulate root recursive (.ok start) x
        = .ok (mergeCollectResults start c) := by
      simp [accumulate, Result.bind, hc, Result.map]
    rw [hstep]
    exact ih _ (fun y hy => h y (by simp [hy]))

/-- C1: the fold in `collect_pdfs` short-circuits on the first fatal per-input
failure: when every input before `bad` resolves successfully and `bad`
resolves to the failure `m`, the whole collection is exactly `Err m`,
whatever the later inputs are — nothing from them reaches the result.  The
concrete conjunct shows it on an explicit non-PDF file followed by a
directory of valid PDFs, with the message containing `"not a PDF file"`. -/
theorem collect_short_circuits_on_first_fatal :
    (∀ (root : FsNode) (recursive : Bool) (pre : List FilePath) (bad : FilePath)
        (post : List FilePath) (m : String),
      (∀ x ∈ pre, ∃ c, resolveInput root recursive x = .ok c) →
      resolveInput root recursive bad = .err m →
      collectPdfs root (pre ++ bad :: post) recursive = .err m) ∧
    collectPdfs sampleRoot [["x.txt"], ["d"]] false
      = .err "not a PDF file: x.txt" := by
  constructor
  · intro root recursive pre bad post m hpre hbad
    unfold collectPdfs
    rw [List.foldl_append]
    obtain ⟨acc, hacc⟩ := foldl_accumulate_ok_of_all_ok root recursive pre
      emptyCollect hpre
    rw [hacc, List.foldl_cons]
    have hstep : accumulate root recursive (.ok acc) bad = .err m := by
      simp [accumulate, Result.bind, hbad, Result.map]
    rw [hstep, foldl_accumulate_err]
    rfl
  · decide

/-- Witness for C1: the general short-circuit applied with an empty prefix,
the explicit non-PDF `x.txt`, and a non-empty tail. -/
theorem collect_short_circuits_on_first_fatal_witness :
    collectPdfs sampleRoot [["x.txt"], ["d2"]] false
      = .err "not a PDF file: x.txt" :=
  collect_short_circuits_on_first_fatal.1 sampleRoot false [] ["x.txt"] [["d2"]]
    "not a PDF file: x.txt" (by simp) (by decide)

/-- C2: a successful `collect_pdfs` always carries a non-empty file list, and
when the fold over all inputs succeeds with an empty accumulated file list
(warnings included, e.g. only empty directories), the result is exactly the
failure `"no PDF files to merge"`. -/
theorem collect_success_nonempty_or_nothing_to_merge :
    (∀ (root : FsNode) (inputs : List FilePath) (recursive : Bool)
        (cr : CollectResult),
      collectPdfs root inputs recursive = .ok cr → cr.files ≠ []) ∧
    (∀ (root : FsNode) (inputs : List FilePath) (recursive : Bool)
        (acc : CollectResult),
      inputs.foldl (accumulate root recursive) (.ok emptyCollect) = .ok acc →
      acc.files = [] →
      collectPdfs root inputs recursive = .err "no PDF files to merge") := by
  constructor
  · intro root inputs recursive cr h
    unfold collectPdfs at h
    cases hf : inputs.foldl (accumulate root recursive) (.ok emptyCollect) with
    | err m => rw [hf] at h; simp [Result.bind] at h
    | ok acc =>
      rw [hf] at h
      simp only [Result.bind] at h
      split_ifs at h with he
      injection h with h₂
      subst h₂
      exact he
  · intro root inputs recursive acc hfold hempty
    unfold collectPdfs
    rw [hfold]
    simp [Result.bind, hempty]

/-- Witness for C2: collecting from the empty directory `e` alone folds to a
success with no files and one warning, and the final check turns it into
`"no PDF files to merge"`. -/
theorem collect_success_nonempty_or_nothing_to_merge_witness :
    collectPdfs sampleRoot [["e"]] false = .err "no PDF files to merge" :=
  collect_success_nonempty_or_nothing_to_merge.2 sampleRoot [["e"]] false
    ⟨[], ["no PDFs found in directory: e"]⟩ (by decide) (by decide)

/-! ## Directory resolution -/

theorem readPdf_ok_eq {root : FsNode} {p q : FilePath}
    (h : readPdf root p = .ok q) : q = p := by
  unfold readPdf at h
  cases hl : lookup p root with
  | none => rw [hl] at h; simp at h
  | some node =>
    rw [hl] at h
    cases node with
    | file re pages =>
      cases re with
      | some e => simp at h
      | none =>
        by_cases hp : pages = 0
        · simp [hp] at h
        · simp [hp] at h
          exact h.symm
    | dir cs => simp at h
    | other => simp at h

theorem validatePdf_ok_eq {root : FsNode} {p q : FilePath}
    (h : validatePdf root p = .ok q) : q = p := by
  unfold validatePdf Result.mapErr at h
  cases hr : readPdf root p with
  | ok v =>
    rw [hr] at h
    simp at h
    rw [← h]
    exact readPdf_ok_eq hr
  | err e => rw [hr] at h; simp at h

theorem filterMap_okOf_validate (root : FsNode) :
    ∀ l : List FilePath,
      l.filterMap (fun p => okOf (validatePdf root p)) =
        l.filter (fun p => (validatePdf root p).isOk) := by
  intro l
  induction l with
  | nil => rfl
  | cons p ps ih =>
    cases hv : validatePdf root p with
    | ok q =>
      have hq : q = p := validatePdf_ok_eq hv
      subst hq
      simp only [List.filterMap_cons, List.filter_cons, hv, okOf, Result.isOk] at ih ⊢
      simpa using ih
    | err e =>
      simp only [List.filterMap_cons, List.filter_cons, hv, okOf, Result.isOk] at ih ⊢
      simpa using ih

/-- C3: a directory input with at least one candidate PDF never resolves to a
fatal failure: the candidates are sorted by the natural ordering, each is
validated, the failures are excluded from the files and their messages become
the warnings, in sorted order.  The concrete conjunct: `d2` holds exactly one
valid and one corrupt PDF and resolves to a success with exactly the valid
file and exactly one warning. -/
theorem dir_with_candidates_never_fatal :
    (∀ (root : FsNode) (raw : FilePath) (cs : List (String × FsNode))
        (recursive : Bool),
      lookup raw root = some (.dir cs) →
      sortedPdfs raw cs recursive ≠ [] →
      resolveInput root recursive raw =
        .ok ⟨(sortedPdfs raw cs recursive).filter
                (fun p => (validatePdf root p).isOk),
             (sortedPdfs raw cs recursive).filterMap
                (fun p => errOf (validatePdf root p))⟩) ∧
    resolveInput sampleRoot false ["d2"]
      = .ok ⟨[["d2", "good.pdf"]], ["EOF marker not found"]⟩ := by
  constructor
  · intro root raw cs recursive hlook hne
    have hres : resolveInput root recursive raw = resolveDir root raw cs recursive := by
      unfold resolveInput
      rw [hlook]
    rw [hres]
    simp only [resolveDir]
    rw [if_neg hne]
    simp only [partitionResults]
    rw [List.filterMap_map, List.filterMap_map]
    have h₁ : (okOf ∘ validatePdf root) = fun p => okOf (validatePdf root p) := rfl
    have h₂ : (errOf ∘ validatePdf root) = fun p => errOf (validatePdf root p) := rfl
    rw [h₁, h₂, filterMap_okOf_validate]
  · decide

/-- Witness for C3: the general statement applied to `d2` inside
`sampleRoot`. -/
theorem dir_with_candidates_never_fatal_witness :
    resolveInput sampleRoot false ["d2"] =
      .ok ⟨(sortedPdfs ["d2"] sampleD2Children false).filter
              (fun p => (validatePdf sampleRoot p).isOk),
           (sortedPdfs ["d2"] sampleD2Children false).filterMap
              (fun p => errOf (validatePdf sampleRoot p))⟩ :=
  dir_with_candidates_never_fatal.1 sampleRoot ["d2"] sampleD2Children false
    (by rfl) (by decide)

/-- C6 counterexample: a filesystem entry that is neither a regular file nor
a directory does not resolve to an empty success — the code resolves it to
the fatal failure `"unsupported path type: {raw}"`. -/
theorem other_entry_counterexample :
    resolveInput sampleRoot false ["dev0"] = .err "unsupported path type: dev0" ∧
    (resolveInput sampleRoot false ["dev0"]).isOk = false := by
  constructor
  · decide
  · decide

/-- C6 (amended): a raw input whose resolved path exists but is neither a
regular file nor a directory resolves to the fatal failure
`"unsupported path type: {raw}"` (not to an empty success). -/
theorem other_entry_is_fatal :
    ∀ (root : FsNode) (recursive : Bool) (raw : FilePath),
      lookup raw root = some .other →
      resolveInput root recursive raw =
        .err ("unsupported path type: " ++ pathStr raw) := by
  intro root recursive raw h
  unfold resolveInput
  rw [h]

/-- Witness for amended C6: the device node of the sample tree. -/
theorem other_entry_is_fatal_witness :
    resolveInput sampleRoot false ["dev0"]
      = .err ("unsupported path type: " ++ pathStr ["dev0"]) :=
  other_entry_is_fatal sampleRoot false ["dev0"] (by rfl)

/-- C9: directory scanning considers only regular files — every candidate
path of a scan comes from a glob match whose node is a regular file, so an
entry named like a PDF that is a subdirectory is excluded, produces no
warning and is never validated.  Concretely: `d` contains the subdirectory
`sub.pdf` (and a device `dev0`), and resolving `d` — non-recursively and
recursively — yields only the regular-file candidates, with the sole warning
coming from the corrupt `b.pdf`. -/
theorem dir_scan_only_regular_files :
    (∀ (raw : FilePath) (cs : List (String × FsNode)) (recursive : Bool)
        (p : FilePath),
      p ∈ dirCandidates raw cs recursive →
      ∃ node, (p, node) ∈ globMatches raw cs recursive ∧ isFileNode node = true) ∧
    resolveInput sampleRoot false ["d"]
      = .ok ⟨[["d", "a.pdf"]], ["broken"]⟩ ∧
    resolveInput sampleRoot true ["d"]
      = .ok ⟨[["d", "a.pdf"]], ["broken"]⟩ := by
  refine ⟨?_, by decide, by decide⟩
  intro raw cs recursive p hp
  unfold dirCandidates at hp
  rw [List.mem_map] at hp
  obtain ⟨pc, hpc, hfst⟩ := hp
  rw [List.mem_filter] at hpc
  exact ⟨pc.2, by rw [← hfst]; exact hpc.1, hpc.2⟩

/-- Witness for C9: the valid candidate of `d` indeed comes from a
regular-file node. -/
theorem dir_scan_only_regular_files_witness :
    ∃ node, (⟨["d", "a.pdf"], node⟩ : FilePath × FsNode)
        ∈ globMatches ["d"] sampleDChildren false ∧ isFileNode node = true :=
  dir_scan_only_regular_files.1 ["d"] sampleDChildren false ["d", "a.pdf"]
    (by decide)

/-- C8: on both failure forms of `collect_pdfs` — a fatal per-input failure
after a successfully folded prefix, and the final empty-file-list conversion —
the result is exactly `Err m` for the bare message string: the warnings the
prefix accumulated (`acc.warnings`, arbitrary here) do not occur in the
result, so the caller never receives them. -/
theorem collect_failure_discards_warnings :
    (∀ (root : FsNode) (recursive : Bool) (pre : List FilePath)
        (bad : FilePath) (post : List FilePath) (m : String)
        (acc : CollectResult),
      pre.foldl (accumulate root recursive) (.ok emptyCollect) = .ok acc →
      resolveInput root recursive bad = .err m →
      collectPdfs root (pre ++ bad :: post) recursive = .err m) ∧
    (∀ (root : FsNode) (recursive : Bool) (inputs : List FilePath)
        (acc : CollectResult),
      inputs.foldl (accumulate root recursive) (.ok emptyCollect) = .ok acc →
      acc.files = [] →
      collectPdfs root inputs recursive = .err "no PDF files to merge") := by
  constructor
  · intro root recursive pre bad post m acc hfold hbad
    unfold collectPdfs
    rw [List.foldl_append, hfold, List.foldl_cons]
    have hstep : accumulate root recursive (.ok acc) bad = .err m := by
      simp [accumulate, Result.bind, hbad, Result.map]
    rw [hstep, foldl_accumulate_err]
    rfl
  · intro root recursive inputs acc hfold hempty
    unfold collectPdfs
    rw [hfold]
    simp [Result.bind, hempty]

/-- Witness for C8: a prefix that accumulated a warning (`d`'s corrupt
`b.pdf`) followed by a fatal input; the result is the bare fatal message. -/
theorem collect_failure_discards_warnings_witness :
    collectPdfs sampleRoot [["d"], ["x.txt"], ["d2"]] false
      = .err "not a PDF file: x.txt" :=
  collect_failure_discards_warnings.1 sampleRoot false [["d"]] ["x.txt"]
    [["d2"]] "not a PDF file: x.txt" ⟨[["d", "a.pdf"]], ["broken"]⟩
    (by decide) (by decide)

/-! ## The merger -/

theorem appendPdf_ok {root : FsNode} {w w' : Nat} {p : FilePath}
    (h : appendPdf root w p = .ok w') : w' = w + pagesOf root p := by
  unfold appendPdf at h
  unfold pagesOf
  cases hl : lookup p root with
  | none => rw [hl] at h; simp at h
  | some node =>
    rw [hl] at h
    cases node with
    | file re pages =>
      cases re with
      | some e => simp at h
      | none =>
        simp at h ⊢
        omega
    | dir cs => simp at h
    | other => simp at h

theorem buildWriter_ok_sum {root : FsNode} :
    ∀ {files : List FilePath} {w n : Nat},
      buildWriter root w files = .ok n → n = w + sumPages root files := by
  intro files
  induction files with
  | nil =>
    intro w n h
    unfold buildWriter at h
    injection h with h
    simp [sumPages, h]
  | cons p ps ih =>
    intro w n h
    unfold buildWriter at h
    cases ha : appendPdf root w p with
    | error e => rw [ha] at h; simp at h
    | ok w' =>
      rw [ha] at h
      have hw' : w' = w + pagesOf root p := appendPdf_ok ha
      have hn := ih h
      simp only [sumPages, List.map_cons, List.sum_cons] at hn ⊢
      omega

theorem mergeWorldRoot (w : World) (q : FilePath) :
    (if q ∈ w.dirs then w else { w with dirs := q :: w.dirs }).root = w.root := by
  split_ifs <;> rfl

/-- C5: `merge_pdfs` has exactly two outcomes.  A success is a `MergeResult`
whose output is the given output path, whose file count is the length of the
input list, and whose page count — read back from the finalized writer — is
the sum of the sources' page counts; any codec failure during append or write
yields a failure message `"merge failed: {detail}"`.  No exception escapes:
`mergeEffect` is total into `Result`. -/
theorem merge_two_outcomes :
    ∀ (w : World) (files : List FilePath) (output : FilePath),
      (∀ res, (mergeEffect files output w).2 = .ok res →
        res = ⟨output, files.length, sumPages w.root files⟩) ∧
      (∀ m, (mergeEffect files output w).2 = .err m →
        ∃ d, m = "merge failed: " ++ d) := by
  intro w files output
  constructor
  · intro res h
    simp only [mergeEffect] at h
    rw [mergeWorldRoot] at h
    split at h
    · simp at h
    · rename_i pages hb
      split at h
      · simp at h
      · rename_i w₂ hw
        injection h with h₂
        have hsum : pages = 0 + sumPages w.root files := buildWriter_ok_sum hb
        have hp : pages = sumPages w.root files := by omega
        rw [← h₂, hp]
  · intro m h
    simp only [mergeEffect] at h
    rw [mergeWorldRoot] at h
    split at h
    · rename_i e hb
      injection h with h₂
      exact ⟨e, h₂.symm⟩
    · rename_i pages hb
      split at h
      · rename_i e hw
        injection h with h₂
        exact ⟨e, h₂.symm⟩
      · simp at h

/-- Witness for C5: merging the single two-page `d/a.pdf` of the sample world
succeeds with file count 1 and page count 2 = the sources' sum. -/
theorem merge_two_outcomes_witness :
    (⟨["out.pdf"], 1, 2⟩ : MergeResult)
      = ⟨["out.pdf"], 1, sumPages sampleWorld.root [["d", "a.pdf"]]⟩ :=
  (merge_two_outcomes sampleWorld [["d", "a.pdf"]] ["out.pdf"]).1
    ⟨["out.pdf"], 1, 2⟩ (by decide)

theorem writeOut_ok_dirs {w : World} {output : FilePath} {pages : Nat}
    {w₂ : World} (h : writeOut w output pages = .ok w₂) : w₂.dirs = w.dirs := by
  unfold writeOut at h
  cases hf : w.writeErrs.find? (fun pe => pe.1 == output) with
  | none => rw [hf] at h; injection h with h; rw [← h]
  | some pe => rw [hf] at h; simp at h

/-- C10: calling `merge_pdfs` performs no effect: the call returns the world
unchanged together with a lazy `IO` value, running that value is exactly
`mergeEffect`, and the effects (here: creating the output's parent directory)
happen only at `run`. -/
theorem merge_call_is_lazy :
    (∀ (files : List FilePath) (output : FilePath) (w : World),
      (mergePdfsCall files output w).1 = w) ∧
    (∀ (files : List FilePath) (output : FilePath) (w w' : World),
      IOAction.run (mergePdfsCall files output w).2 w'
        = mergeEffect files output w') ∧
    (∀ (files : List FilePath) (output : FilePath) (w : World),
      output.dropLast ∉ w.dirs →
      (IOAction.run (mergePdfs files output) w).1.dirs
        = output.dropLast :: w.dirs) := by
  refine ⟨fun _ _ _ => rfl, fun _ _ _ _ => rfl, ?_⟩
  intro files output w hdir
  unfold IOAction.run mergePdfs
  simp only [mergeEffect]
  rw [if_neg hdir]
  split
  · rfl
  · split
    · rfl
    · rename_i w₂ hw
      simpa using writeOut_ok_dirs hw

/-- Witness for C10: running the lazy merge over the sample world with an
output under a not-yet-existing directory creates exactly that directory. -/
theorem merge_call_is_lazy_witness :
    (IOAction.run (mergePdfs [["d", "a.pdf"]] ["out", "m.pdf"]) sampleWorld).1.dirs
      = ["out"] :: sampleWorld.dirs :=
  merge_call_is_lazy.2.2 [["d", "a.pdf"]] ["out", "m.pdf"] sampleWorld
    (by decide)

/-! ## The Result value's operations -/

/-- C7: none of the Result operations raises when its function argument does
not (modeled through the `Exec` variants, where a raising argument is an
`Except.error`; `unwrap_or`, `is_ok` and `is_err` take no function argument
and are total, returning the stated values on both variants); the one
exception is unwrapping a `Failure`, which raises
`RuntimeError("unwrap called on Err: {error}")` for every error, while
unwrapping a `Success` returns its payload. -/
theorem result_ops_never_raise :
    (∀ (T U E : Type) (f : T → Except String U), (∀ x, exOk (f x) = true) →
      ∀ r : Result T E, exOk (r.mapExec f) = true) ∧
    (∀ (T U E : Type) (f : T → Except String (Result U E)),
      (∀ x, exOk (f x) = true) →
      ∀ r : Result T E, exOk (r.bindExec f) = true) ∧
    (∀ (T E : Type) (f : E → Except String E), (∀ x, exOk (f x) = true) →
      ∀ r : Result T E, exOk (r.mapErrExec f) = true) ∧
    (∀ (T E : Type) (v d : T), (Result.ok v : Result T E).unwrapOr d = v) ∧
    (∀ (T E : Type) (e : E) (d : T), (Result.err e : Result T E).unwrapOr d = d) ∧
    (∀ (T E : Type) (v : T), (Result.ok v : Result T E).isOk = true ∧
      (Result.ok v : Result T E).isErr = false) ∧
    (∀ (T E : Type) (e : E), (Result.err e : Result T E).isOk = false ∧
      (Result.err e : Result T E).isErr = true) ∧
    (∀ (T : Type) (v : T), (Result.ok v : Result T String).unwrap = .ok v) ∧
    (∀ (T : Type) (e : String), (Result.err e : Result T String).unwrap
      = .error ("unwrap called on Err: " ++ e)) := by
  refine ⟨?_, ?_, ?_, fun _ _ v d => rfl, fun _ _ e d => rfl,
    fun _ _ v => ⟨rfl, rfl⟩, fun _ _ e => ⟨rfl, rfl⟩,
    fun _ v => rfl, fun _ e => rfl⟩
  · intro T U E f hf r
    cases r with
    | err e => rfl
    | ok v =>
      have hv := hf v
      show exOk ((f v).map Result.ok) = true
      cases hfv : f v with
      | ok u => rfl
      | error e => rw [hfv] at hv; simp [exOk] at hv
  · intro T U E f hf r
    cases r with
    | err e => rfl
    | ok v => exact hf v
  · intro T E f hf r
    cases r with
    | ok v => rfl
    | err e =>
      have hv := hf e
      show exOk ((f e).map Result.err) = true
      cases hfe : f e with
      | ok u => rfl
      | error m => rw [hfe] at hv; simp [exOk] at hv

/-- Witness for C7: the map execution with a non-raising function on a
concrete `Ok` completes without raising. -/
theorem result_ops_never_raise_witness :
    exOk (Result.mapExec (fun n : Nat => (Except.ok (n + 1) : Except String Nat))
      (Result.ok 0 : Result Nat String)) = true :=
  result_ops_never_raise.1 Nat Nat String
    (fun n => (Except.ok (n + 1) : Except String Nat)) (fun _ => rfl)
    (Result.ok 0)

end PdfBurger
